import Mathlib

/-!
Verification of the monkai-trace session-management and batching core.

This file gives a shallow embedding of the session lifecycle code in
`monkai_trace/session_manager.py` (`SessionManager.get_or_create_session`,
`SessionManager.cleanup_expired`, `PersistentSessionManager.get_or_create_session`)
and of the batching/upload code in
`monkai_trace/integrations/openai_agents.py` (`MonkAIRunHooks.on_agent_end`
batching fragment, `MonkAIRunHooks._flush_batch`) and
`monkai_trace/client.py` (`MonkAIClient.upload_records_batch`),
and proves the spec's session and batching properties against it.

Modelling conventions:
* Wall-clock times are whole seconds (`Nat`).  `time.time()` values are
  passed to each operation explicitly as `now` arguments.  Natural-number
  subtraction truncates at zero, which agrees with the Python comparisons
  for a non-negative timeout: a negative Python elapsed time compares below
  the timeout exactly as the truncated `0` does.
* The session-id timestamp `datetime.now().strftime('%Y%m%d-%H%M%S')` is
  modelled as the decimal rendering `Nat.repr` of the current second count:
  like the strftime format it is a digit string (plus an inner dash in the
  original) that is injective and increasing at second granularity.
* The `_sessions` Python dict is an association list with insertion-order
  semantics: assignment replaces the entry in place or appends a fresh key
  at the end, `del` removes the entry of a key.
* Fallible remote calls are `Except String` values supplied per call; the
  embedded functions are total, mirroring the fact that the Python methods
  under study catch the exceptions of their callees.
-/

set_option maxHeartbeats 1000000

namespace MonkaiTrace

/-- One entry of the `SessionManager._sessions` dict:
`{'session_id': ..., 'last_activity': ..., 'created_at': ...}`
(session_manager.py, lines 64-68). -/
structure SessionData where
  session_id : String
  last_activity : Nat
  created_at : Nat
deriving DecidableEq

/-- Python dict lookup `self._sessions[user_id]`, combined with the
membership test `user_id in self._sessions` (`none` = absent). -/
def dictGet (k : String) : List (String × SessionData) → Option SessionData
  | [] => none
  | p :: rest => if p.1 = k then some p.2 else dictGet k rest

/-- Python dict assignment `self._sessions[user_id] = {...}`: replaces the
entry of an existing key in place, otherwise appends the new key at the
end (CPython dicts preserve insertion order). -/
def dictSet (k : String) (v : SessionData) : List (String × SessionData) → List (String × SessionData)
  | [] => [(k, v)]
  | p :: rest => if p.1 = k then (k, v) :: rest else p :: dictSet k v rest

/-- Python `del self._sessions[user_id]`: removes the entry of the key. -/
def dictDel (k : String) : List (String × SessionData) → List (String × SessionData)
  | [] => []
  | p :: rest => if p.1 = k then rest else p :: dictDel k rest

/-- Session-id construction `f"{namespace}-{user_id}-{timestamp}"`
(session_manager.py, lines 61-62), with the strftime timestamp modelled as
the decimal rendering of the current whole second. -/
def mkSessionId (ns user_id : String) (now : Nat) : String :=
  ns ++ "-" ++ user_id ++ "-" ++ Nat.repr now

/-- State of a `SessionManager`: the configured `inactivity_timeout` in
seconds and the `_sessions` dict (session_manager.py, lines 20-27). -/
structure SessionManager where
  inactivity_timeout : Nat
  sessions : List (String × SessionData)
deriving DecidableEq

/-- `SessionManager.get_or_create_session` (session_manager.py, lines
29-70).  Returns the session id and the updated manager state.  The Python
method reads `time.time()`; here that value is the explicit `now`. -/
def get_or_create_session (m : SessionManager) (user_id ns : String)
    (force_new : Bool) (now : Nat) : String × SessionManager :=
  match dictGet user_id m.sessions with
  | some data =>
    if force_new = false ∧ now - data.last_activity < m.inactivity_timeout then
      (data.session_id,
        { m with sessions := dictSet user_id { data with last_activity := now } m.sessions })
    else
      let sid := mkSessionId ns user_id now
      (sid, { m with sessions := dictSet user_id ⟨sid, now, now⟩ m.sessions })
  | none =>
    let sid := mkSessionId ns user_id now
    (sid, { m with sessions := dictSet user_id ⟨sid, now, now⟩ m.sessions })

/-- `SessionManager.cleanup_expired` (session_manager.py, lines 84-97):
collects the keys whose elapsed time is strictly greater than the timeout,
deletes each collected key, and returns how many were collected together
with the new state. -/
def cleanup_expired (m : SessionManager) (now : Nat) : Nat × SessionManager :=
  let expired := (m.sessions.filter fun p =>
    decide (m.inactivity_timeout < now - p.2.last_activity)).map Prod.fst
  (expired.length,
    { m with sessions := expired.foldl (fun acc k => dictDel k acc) m.sessions })

/-- Successful JSON response of the backend `sessions/get-or-create`
endpoint, as consumed by `PersistentSessionManager.get_or_create_session`
(session_manager.py, lines 178-179): `result['session_id']` and
`result.get('reused', False)`. -/
structure RemoteSession where
  session_id : String
  reused : Bool
deriving DecidableEq

/-- Result of one `PersistentSessionManager.get_or_create_session` call:
the returned session id, the manager state afterwards, and whether the
remote resolver was invoked (the slow path was taken). -/
structure PersistentResult where
  session_id : String
  state : SessionManager
  remote_consulted : Bool
deriving DecidableEq

/-- The fast-path condition of `PersistentSessionManager.get_or_create_session`
(session_manager.py, lines 163-168): the user has a cached session, no new
session is forced, and the cached session is within the inactivity window. -/
def fastPathHit (m : SessionManager) (user_id : String) (force_new : Bool)
    (now : Nat) : Bool :=
  match dictGet user_id m.sessions with
  | some data => !force_new && decide (now - data.last_activity < m.inactivity_timeout)
  | none => false

/-- Slow path of `PersistentSessionManager.get_or_create_session`
(session_manager.py, lines 170-196): on a successful remote call the local
cache entry is overwritten with the remote session id and fresh timestamps;
on any remote failure the pure-local algorithm is used as fallback. -/
def persistent_slow_path (m : SessionManager) (user_id ns : String)
    (force_new : Bool) (remote : Except String RemoteSession) (tSlow : Nat) :
    PersistentResult :=
  match remote with
  | .ok r =>
    ⟨r.session_id,
      { m with sessions := dictSet user_id ⟨r.session_id, tSlow, tSlow⟩ m.sessions },
      true⟩
  | .error _ =>
    let p := get_or_create_session m user_id ns force_new tSlow
    ⟨p.1, p.2, true⟩

/-- `PersistentSessionManager.get_or_create_session` (session_manager.py,
lines 145-196).  `remote` is the outcome of the (single) backend call the
slow path would make; `tFast` and `tSlow` are the `time.time()` readings of
the fast-path check and of the slow-path cache update / fallback. -/
def persistent_get_or_create_session (m : SessionManager) (user_id ns : String)
    (force_new : Bool) (remote : Except String RemoteSession)
    (tFast tSlow : Nat) : PersistentResult :=
  match dictGet user_id m.sessions with
  | some data =>
    if force_new = false ∧ tFast - data.last_activity < m.inactivity_timeout then
      ⟨data.session_id,
        { m with sessions := dictSet user_id { data with last_activity := tFast } m.sessions },
        false⟩
    else persistent_slow_path m user_id ns force_new remote tSlow
  | none => persistent_slow_path m user_id ns force_new remote tSlow

/-- Python slicing loop `for i in range(0, len(records), chunk_size):
chunk = records[i:i + chunk_size]` (client.py, lines 131-132).  A step of
`0` makes Python `range` raise; that unreachable case is mapped to a single
chunk to keep the function total, and all theorems assume `0 < cs`. -/
def chunksOf {R : Type} (cs : Nat) (l : List R) : List (List R) :=
  match l with
  | [] => []
  | x :: xs =>
    if _h2 : cs = 0 then [x :: xs]
    else (x :: xs).take cs :: chunksOf cs ((x :: xs).drop cs)
termination_by l.length
decreasing_by
  simp only [List.length_drop, List.length_cons]
  omega

/-- Summary dict returned by `MonkAIClient.upload_records_batch`
(client.py, lines 142-146): `{'total_inserted', 'total_records',
'failures': [{'chunk_index', 'error'}]}`. -/
structure UploadSummary where
  total_inserted : Nat
  total_records : Nat
  failures : List (Nat × String)
deriving DecidableEq

/-- `MonkAIClient.upload_records_batch` (client.py, lines 113-146).
`send i chunk` is the outcome of `self._upload_records_chunk(chunk)` for
the `i`-th chunk: either the response's `inserted_count` (`.get` default
`0` folded in) or the exception message.  Every chunk exception is caught
and recorded as a `{chunk_index, error}` failure entry; the function never
raises, hence it is total here. -/
def upload_records_batch {R : Type} (send : Nat → List R → Except String Nat)
    (records : List R) (chunk_size : Nat) : UploadSummary :=
  let r := ((chunksOf chunk_size records).enum).foldl
    (fun acc p =>
      match send p.1 p.2 with
      | .ok n => (acc.1 + n, acc.2)
      | .error e => (acc.1, acc.2 ++ [(p.1, e)]))
    (0, ([] : List (Nat × String)))
  ⟨r.1, records.length, r.2⟩

/-- Result of one `MonkAIRunHooks._flush_batch` / batching step: the batch
buffer afterwards, the list of records handed to
`client.upload_records_batch` (if the call was made at all), and the
summary that call returned. -/
structure FlushResult (R : Type) where
  buffer : List R
  uploaded : Option (List R)
  summary : Option UploadSummary

/-- `MonkAIRunHooks._flush_batch` (openai_agents.py, lines 486-496): on an
empty buffer it returns without calling the transport; otherwise it calls
`client.upload_records_batch` with the whole buffer and then clears the
buffer.  Because `upload_records_batch` catches every per-chunk exception
and always returns a summary (see above), the `except` branch of
`_flush_batch` — which would leave the buffer intact — is unreachable for
transport failures, so the buffer is cleared unconditionally after the
call. -/
def flush_batch {R : Type} (send : Nat → List R → Except String Nat)
    (chunk_size : Nat) (buffer : List R) : FlushResult R :=
  if buffer.isEmpty then ⟨buffer, none, none⟩
  else ⟨[], some buffer, some (upload_records_batch send buffer chunk_size)⟩

/-- Batching fragment of `MonkAIRunHooks.on_agent_end` (openai_agents.py,
lines 260-264): append the finalized record to `_batch_buffer`; if the
buffer length has reached `batch_size`, run `_flush_batch`. -/
def enqueue_record {R : Type} (send : Nat → List R → Except String Nat)
    (batch_size chunk_size : Nat) (buffer : List R) (r : R) : FlushResult R :=
  let b := buffer ++ [r]
  if batch_size ≤ b.length then flush_batch send chunk_size b
  else ⟨b, none, none⟩

/-- Numeric value of a decimal digit character (used to reason about the
decimal timestamp component of session ids). -/
def dVal (c : Char) : Nat := c.toNat - '0'.toNat

/-- Decimal value of a digit string, most significant digit first. -/
def valD (l : List Char) : Nat := l.foldl (fun a c => 10 * a + dVal c) 0

/-! Association-list lemmas for the dict model. -/

theorem dictGet_dictSet_self (k : String) (v : SessionData)
    (l : List (String × SessionData)) : dictGet k (dictSet k v l) = some v := by
  induction l with
  | nil => simp [dictGet, dictSet]
  | cons p rest ih =>
    by_cases h : p.1 = k <;> simp [dictGet, dictSet, h, ih]

theorem dictGet_dictSet_ne (k1 k2 : String) (v : SessionData)
    (l : List (String × SessionData)) (h : k1 ≠ k2) :
    dictGet k2 (dictSet k1 v l) = dictGet k2 l := by
  induction l with
  | nil => simp [dictGet, dictSet, h]
  | cons p rest ih =>
    by_cases hp : p.1 = k1
    · simp [dictGet, dictSet, hp, h]
    · by_cases hq : p.1 = k2 <;> simp [dictGet, dictSet, hp, hq, ih, Ne.symm h]

/-! Decimal-rendering facts about `Nat.repr`, used to reason about the
timestamp component of session ids. -/

theorem digitChar_isDigit (k : Nat) (h : k < 10) :
    (Nat.digitChar k).isDigit = true := by
  interval_cases k <;> decide

theorem dVal_digitChar (k : Nat) (h : k < 10) : dVal (Nat.digitChar k) = k := by
  interval_cases k <;> decide

theorem valD_append_singleton (l : List Char) (c : Char) :
    valD (l ++ [c]) = 10 * valD l + dVal c := by
  simp [valD, List.foldl_append]

theorem toDigitsCore_spec (fuel : Nat) : ∀ (n : Nat) (acc : List Char),
    n < fuel →
    ∃ D, Nat.toDigitsCore 10 fuel n acc = D ++ acc ∧ D ≠ [] ∧
      (∀ c ∈ D, c.isDigit = true) ∧ valD D = n := by
  induction fuel with
  | zero => intro n _ h; exact absurd h (Nat.not_lt_zero n)
  | succ fuel ih =>
    intro n acc h
    by_cases h0 : n / 10 = 0
    · refine ⟨[Nat.digitChar (n % 10)], ?_, by simp, ?_, ?_⟩
      · simp [Nat.toDigitsCore, h0]
      · intro c hc
        simp only [List.mem_singleton] at hc
        subst hc
        exact digitChar_isDigit (n % 10) (Nat.mod_lt _ (by norm_num))
      · have h1 : n % 10 = n := by omega
        have h2 := dVal_digitChar (n % 10) (Nat.mod_lt _ (by norm_num))
        simp only [valD, List.foldl_cons, List.foldl_nil, h2]
        omega
    · have hrec : n / 10 < fuel := by omega
      obtain ⟨D, hD, _, hdig, hval⟩ := ih (n / 10) (Nat.digitChar (n % 10) :: acc) hrec
      refine ⟨D ++ [Nat.digitChar (n % 10)], ?_, by simp, ?_, ?_⟩
      · simp [Nat.toDigitsCore, h0, hD]
      · intro c hc
        rcases List.mem_append.mp hc with hc | hc
        · exact hdig c hc
        · simp only [List.mem_singleton] at hc
          subst hc
          exact digitChar_isDigit (n % 10) (Nat.mod_lt _ (by norm_num))
      · rw [valD_append_singleton, hval, dVal_digitChar (n % 10) (Nat.mod_lt _ (by norm_num))]
        omega

theorem repr_spec (n : Nat) :
    ∃ D, (Nat.repr n).data = D ∧ D ≠ [] ∧
      (∀ c ∈ D, c.isDigit = true) ∧ valD D = n := by
  obtain ⟨D, hD, hne, hdig, hval⟩ := toDigitsCore_spec (n + 1) n [] (Nat.lt_succ_self n)
  refine ⟨D, ?_, hne, hdig, hval⟩
  simp only [Nat.repr, Nat.toDigits]
  rw [hD]
  simp [List.asString]

theorem valD_repr (n : Nat) : valD (Nat.repr n).data = n := by
  obtain ⟨D, hD, _, _, hval⟩ := repr_spec n
  rw [hD, hval]

theorem repr_digit (n : Nat) : ∀ c ∈ (Nat.repr n).data, c.isDigit = true := by
  obtain ⟨D, hD, _, hdig, _⟩ := repr_spec n
  rw [hD]
  exact hdig

/-- Two digit-only blocks followed by the same non-digit separator split a
list equality into its components. -/
theorem digit_sep_inj : ∀ (p1 p2 r1 r2 : List Char),
    (∀ c ∈ p1, c.isDigit = true) → (∀ c ∈ p2, c.isDigit = true) →
    p1 ++ '-' :: r1 = p2 ++ '-' :: r2 → p1 = p2 ∧ r1 = r2 := by
  intro p1
  induction p1 with
  | nil =>
    intro p2 r1 r2 _ hd2 h
    cases p2 with
    | nil => simpa using h
    | cons b bs =>
      simp only [List.nil_append, List.cons_append, List.cons.injEq] at h
      exfalso
      have hb : b.isDigit = true := hd2 b (List.mem_cons_self b bs)
      rw [← h.1] at hb
      simp at hb
  | cons a as ih =>
    intro p2 r1 r2 hd1 hd2 h
    cases p2 with
    | nil =>
      simp only [List.nil_append, List.cons_append, List.cons.injEq] at h
      exfalso
      have ha : a.isDigit = true := hd1 a (List.mem_cons_self a as)
      rw [h.1] at ha
      simp at ha
    | cons b bs =>
      simp only [List.cons_append, List.cons.injEq] at h
      have hrest := ih bs r1 r2 (fun c hc => hd1 c (List.mem_cons_of_mem a hc))
        (fun c hc => hd2 c (List.mem_cons_of_mem b hc)) h.2
      exact ⟨by rw [h.1, hrest.1], hrest.2⟩

theorem mkSessionId_data (ns uid : String) (t : Nat) :
    (mkSessionId ns uid t).data =
      (ns.data ++ '-' :: uid.data) ++ '-' :: (Nat.repr t).data := by
  simp [mkSessionId, String.data_append]

/-- The session-id format determines its timestamp component, and the
namespace/user block, uniquely: the timestamp is the maximal digit-only
suffix after the last dash. -/
theorem mkSessionId_eq_parts (ns1 u1 ns2 u2 : String) (t1 t2 : Nat)
    (h : mkSessionId ns1 u1 t1 = mkSessionId ns2 u2 t2) :
    t1 = t2 ∧ ns1.data ++ '-' :: u1.data = ns2.data ++ '-' :: u2.data := by
  have hd := congrArg String.data h
  rw [mkSessionId_data, mkSessionId_data] at hd
  have hrev := congrArg List.reverse hd
  simp only [List.reverse_append, List.reverse_cons, List.append_assoc,
    List.singleton_append, List.nil_append] at hrev
  have hsep := digit_sep_inj (Nat.repr t1).data.reverse (Nat.repr t2).data.reverse
    _ _ (fun c hc => repr_digit t1 c (List.mem_reverse.mp hc))
    (fun c hc => repr_digit t2 c (List.mem_reverse.mp hc)) hrev
  constructor
  · have hD : (Nat.repr t1).data = (Nat.repr t2).data :=
      List.reverse_injective hsep.1
    rw [← valD_repr t1, ← valD_repr t2, hD]
  · have hr := congrArg List.reverse hsep.2
    simpa [List.reverse_append, List.reverse_cons, List.append_assoc] using hr

theorem mkSessionId_inj_same_user (ns1 ns2 u : String) (t1 t2 : Nat)
    (h : mkSessionId ns1 u t1 = mkSessionId ns2 u t2) : ns1 = ns2 ∧ t1 = t2 := by
  obtain ⟨ht, hblock⟩ := mkSessionId_eq_parts ns1 u ns2 u t1 t2 h
  refine ⟨?_, ht⟩
  have hdata : ns1.data = ns2.data := by
    have := congrArg List.reverse hblock
    simp only [List.reverse_append, List.reverse_cons, List.append_assoc,
      List.singleton_append] at this
    have h2 := List.append_cancel_left this
    have h3 := List.cons_injective h2
    exact List.reverse_injective h3
  exact String.ext hdata

theorem mkSessionId_ne_of_ts_ne (ns1 u1 ns2 u2 : String) {t1 t2 : Nat}
    (h : t1 ≠ t2) : mkSessionId ns1 u1 t1 ≠ mkSessionId ns2 u2 t2 :=
  fun he => h (mkSessionId_eq_parts ns1 u1 ns2 u2 t1 t2 he).1

theorem mkSessionId_ne_of_ns_ne (ns1 ns2 u : String) (t1 t2 : Nat)
    (h : ns1 ≠ ns2) : mkSessionId ns1 u t1 ≠ mkSessionId ns2 u t2 :=
  fun he => h (mkSessionId_inj_same_user ns1 ns2 u t1 t2 he).1

/-! Behavioural lemmas about `get_or_create_session`. -/

/-- After any call, the store holds an entry for the user whose session id
is the returned one and whose `last_activity` is the call time. -/
theorem get_or_create_entry (m : SessionManager) (u ns : String) (fn : Bool)
    (now : Nat) :
    ∃ d, dictGet u (get_or_create_session m u ns fn now).2.sessions = some d ∧
      d.session_id = (get_or_create_session m u ns fn now).1 ∧
      d.last_activity = now := by
  rcases hd : dictGet u m.sessions with _ | data
  · refine ⟨⟨mkSessionId ns u now, now, now⟩, ?_, ?_, ?_⟩ <;>
      simp [get_or_create_session, hd, dictGet_dictSet_self]
  · by_cases hc : fn = false ∧ now - data.last_activity < m.inactivity_timeout
    · refine ⟨{ data with last_activity := now }, ?_, ?_, ?_⟩ <;>
        simp [get_or_create_session, hd, hc, dictGet_dictSet_self]
    · refine ⟨⟨mkSessionId ns u now, now, now⟩, ?_, ?_, ?_⟩ <;>
        simp [get_or_create_session, hd, hc, dictGet_dictSet_self]

/-- The configured timeout is never changed by a call. -/
theorem get_or_create_timeout (m : SessionManager) (u ns : String) (fn : Bool)
    (now : Nat) :
    (get_or_create_session m u ns fn now).2.inactivity_timeout = m.inactivity_timeout := by
  rcases hd : dictGet u m.sessions with _ | d
  · simp [get_or_create_session, hd]
  · by_cases hc : fn = false ∧ now - d.last_activity < m.inactivity_timeout <;>
      simp [get_or_create_session, hd, hc]

/-- Reuse branch: an in-window entry is returned as is, with its
`last_activity` refreshed. -/
theorem get_or_create_of_hit (m : SessionManager) (u ns : String) (now : Nat)
    (d : SessionData) (hd : dictGet u m.sessions = some d)
    (hlt : now - d.last_activity < m.inactivity_timeout) :
    get_or_create_session m u ns false now =
      (d.session_id,
        { m with sessions := dictSet u { d with last_activity := now } m.sessions }) := by
  simp [get_or_create_session, hd, hlt]

/-- Creation branch: when the fast-path condition fails (absent, forced,
or expired), a fresh session keyed by the user is created and returned. -/
theorem get_or_create_of_miss (m : SessionManager) (u ns : String) (fn : Bool)
    (now : Nat) (h : fastPathHit m u fn now = false) :
    get_or_create_session m u ns fn now =
      (mkSessionId ns u now,
        { m with sessions := dictSet u ⟨mkSessionId ns u now, now, now⟩ m.sessions }) := by
  unfold fastPathHit at h
  rcases hd : dictGet u m.sessions with _ | data
  · simp [get_or_create_session, hd]
  · rw [hd] at h
    have hc : ¬ (fn = false ∧ now - data.last_activity < m.inactivity_timeout) := by
      rintro ⟨h1, h2⟩
      rw [h1] at h
      simp [h2] at h
    simp [get_or_create_session, hd, hc]

/-- The returned session id is either freshly minted at the call time or
the stored one. -/
theorem get_or_create_sid_cases (m : SessionManager) (u ns : String) (fn : Bool)
    (now : Nat) :
    (get_or_create_session m u ns fn now).1 = mkSessionId ns u now ∨
    ∃ d, dictGet u m.sessions = some d ∧
      (get_or_create_session m u ns fn now).1 = d.session_id := by
  rcases hd : dictGet u m.sessions with _ | data
  · apply Or.inl
    simp [get_or_create_session, hd]
  · by_cases hc : fn = false ∧ now - data.last_activity < m.inactivity_timeout
    · exact Or.inr ⟨data, rfl, by simp [get_or_create_session, hd, hc]⟩
    · apply Or.inl
      simp [get_or_create_session, hd, hc]

/-- A fast-path miss stays a miss at any later reading of the clock
(elapsed time only grows). -/
theorem fastPathHit_mono (m : SessionManager) (u : String) (fn : Bool)
    (tFast tSlow : Nat) (hts : tFast ≤ tSlow)
    (h : fastPathHit m u fn tFast = false) :
    fastPathHit m u fn tSlow = false := by
  unfold fastPathHit at h ⊢
  cases hd : dictGet u m.sessions with
  | none => rfl
  | some data =>
    rw [hd] at h
    cases hfn : fn with
    | true => simp [hfn]
    | false =>
      rw [hfn] at h
      simp only [Bool.not_false, Bool.true_and] at h ⊢
      simp only [decide_eq_false_iff_not] at h ⊢
      omega

/-! Behavioural lemmas about `persistent_get_or_create_session`. -/

/-- Fast path: a cached in-window session is returned without consulting
the remote resolver. -/
theorem persistent_of_hit (m : SessionManager) (u ns : String)
    (remote : Except String RemoteSession) (tFast tSlow : Nat) (d : SessionData)
    (hd : dictGet u m.sessions = some d)
    (hlt : tFast - d.last_activity < m.inactivity_timeout) :
    persistent_get_or_create_session m u ns false remote tFast tSlow =
      ⟨d.session_id,
        { m with sessions := dictSet u { d with last_activity := tFast } m.sessions },
        false⟩ := by
  simp [persistent_get_or_create_session, hd, hlt]

/-- On a fast-path miss the slow path runs. -/
theorem persistent_of_miss (m : SessionManager) (u ns : String) (fn : Bool)
    (remote : Except String RemoteSession) (tFast tSlow : Nat)
    (h : fastPathHit m u fn tFast = false) :
    persistent_get_or_create_session m u ns fn remote tFast tSlow =
      persistent_slow_path m u ns fn remote tSlow := by
  unfold fastPathHit at h
  rcases hd : dictGet u m.sessions with _ | d
  · simp [persistent_get_or_create_session, hd]
  · rw [hd] at h
    have hc : ¬ (fn = false ∧ tFast - d.last_activity < m.inactivity_timeout) := by
      rintro ⟨h1, h2⟩
      rw [h1] at h
      simp [h2] at h
    simp [persistent_get_or_create_session, hd, hc]

/-! Lemmas about `cleanup_expired`. -/

theorem dictDel_eq_filter (k : String) (l : List (String × SessionData))
    (h : (l.map Prod.fst).Nodup) :
    dictDel k l = l.filter (fun p => decide (p.1 ≠ k)) := by
  induction l with
  | nil => rfl
  | cons p rest ih =>
    simp only [List.map_cons, List.nodup_cons] at h
    by_cases hp : p.1 = k
    · have hall : ∀ q ∈ rest, (!decide (q.1 = k)) = true := by
        intro q hq
        simp only [Bool.not_eq_true', decide_eq_false_iff_not]
        intro hqk
        apply h.1
        rw [hp, ← hqk]
        exact List.mem_map_of_mem Prod.fst hq
      simp [dictDel, hp, List.filter_eq_self.mpr hall]
    · simp [dictDel, hp, ih h.2]

theorem nodup_keys_filter (l : List (String × SessionData))
    (p : String × SessionData → Bool) (h : (l.map Prod.fst).Nodup) :
    ((l.filter p).map Prod.fst).Nodup :=
  h.sublist ((List.filter_sublist l).map Prod.fst)

theorem foldl_dictDel (ks : List String) (l : List (String × SessionData))
    (h : (l.map Prod.fst).Nodup) :
    ks.foldl (fun acc k => dictDel k acc) l =
      l.filter (fun p => decide (¬ p.1 ∈ ks)) := by
  induction ks generalizing l with
  | nil => simp
  | cons k ks ih =>
    simp only [List.foldl_cons]
    rw [dictDel_eq_filter k l h, ih _ (nodup_keys_filter l _ h), List.filter_filter]
    apply List.filter_congr
    intro p _
    rw [Bool.and_comm, ← Bool.decide_and, decide_eq_decide]
    simp [List.mem_cons, not_or, And.comm]

/-! Lemmas about the chunking loop and `upload_records_batch`. -/

/-- The chunks of the slicing loop partition the input list. -/
theorem chunksOf_flatten {R : Type} (cs : Nat) (h : 0 < cs) :
    ∀ l : List R, (chunksOf cs l).flatten = l := by
  refine chunksOf.induct cs (fun l => (chunksOf cs l).flatten = l) ?_ ?_ ?_
  · simp [chunksOf]
  · intro x xs h2
    omega
  · intro x xs h2 ih
    rw [chunksOf]
    simp only [dif_neg h2, List.flatten_cons]
    rw [ih]
    exact List.take_append_drop cs (x :: xs)

/-- Closed form of the accumulation loop of `upload_records_batch`. -/
theorem upload_foldl_spec {R : Type} (send : Nat → List R → Except String Nat)
    (ch : List (Nat × List R)) (a : Nat) (f : List (Nat × String)) :
    ch.foldl (fun acc p =>
        match send p.1 p.2 with
        | .ok n => (acc.1 + n, acc.2)
        | .error e => (acc.1, acc.2 ++ [(p.1, e)])) (a, f) =
      (a + (ch.map fun p => match send p.1 p.2 with
          | .ok n => n
          | .error _ => 0).sum,
        f ++ ch.filterMap fun p => match send p.1 p.2 with
          | .ok _ => none
          | .error e => some (p.1, e)) := by
  induction ch generalizing a f with
  | nil => simp
  | cons p t ih =>
    simp only [List.foldl_cons, List.map_cons, List.filterMap_cons, List.sum_cons]
    cases hs : send p.1 p.2 with
    | ok n => simp [hs, ih, Nat.add_assoc]
    | error e => simp [hs, ih]

/-- `upload_records_batch` in terms of the chunk list: the inserted total
sums the successful chunks, and each failed chunk contributes exactly one
`(chunk_index, error)` entry, in order. -/
theorem upload_records_batch_def {R : Type} (send : Nat → List R → Except String Nat)
    (records : List R) (cs : Nat) :
    upload_records_batch send records cs =
      ⟨((chunksOf cs records).enum.map fun p => match send p.1 p.2 with
          | .ok n => n
          | .error _ => 0).sum,
        records.length,
        (chunksOf cs records).enum.filterMap fun p => match send p.1 p.2 with
          | .ok _ => none
          | .error e => some (p.1, e)⟩ := by
  unfold upload_records_batch
  rw [upload_foldl_spec]
  simp

/-! Claim theorems. -/

/-- C4: for any user identity U and namespace N, two calls to
`get_or_create_session` for (U, N) with `force_new = false`, separated by
an elapsed time strictly below the inactivity timeout, return the same
session id, and the second call updates the stored `last_activity` to the
time of the second call. -/
theorem C4_reuse_within_window (m : SessionManager) (U N : String) (t1 t2 : Nat)
    (hdt : t2 - t1 < m.inactivity_timeout) :
    (get_or_create_session (get_or_create_session m U N false t1).2 U N false t2).1 =
      (get_or_create_session m U N false t1).1 ∧
    ∃ d, dictGet U
        (get_or_create_session (get_or_create_session m U N false t1).2 U N false t2).2.sessions =
        some d ∧
      d.session_id = (get_or_create_session m U N false t1).1 ∧
      d.last_activity = t2 := by
  obtain ⟨d1, hd1, hsid, hla⟩ := get_or_create_entry m U N false t1
  have h2 := get_or_create_of_hit (get_or_create_session m U N false t1).2 U N t2 d1 hd1
    (by rw [hla, get_or_create_timeout]; exact hdt)
  rw [h2]
  exact ⟨hsid, { d1 with last_activity := t2 }, dictGet_dictSet_self U _ _, hsid, rfl⟩

/-- C4 witness at a concrete input. -/
theorem C4_reuse_within_window_witness :
    (150 : Nat) - 100 < (⟨120, []⟩ : SessionManager).inactivity_timeout ∧
    ((get_or_create_session (get_or_create_session ⟨120, []⟩ "u" "ns" false 100).2
        "u" "ns" false 150).1 =
      (get_or_create_session (⟨120, []⟩ : SessionManager) "u" "ns" false 100).1 ∧
    ∃ d, dictGet "u"
        (get_or_create_session (get_or_create_session ⟨120, []⟩ "u" "ns" false 100).2
          "u" "ns" false 150).2.sessions = some d ∧
      d.session_id = (get_or_create_session (⟨120, []⟩ : SessionManager) "u" "ns" false 100).1 ∧
      d.last_activity = 150) :=
  ⟨by decide, C4_reuse_within_window ⟨120, []⟩ "u" "ns" 100 150 (by decide)⟩

/-- C5: for any user identity and namespace, two calls separated by an
elapsed time at or above the (positive) inactivity timeout return
different session ids, and the second id carries a strictly later
timestamp component than the first (assuming the pre-existing entry, if
any, was minted by the session-id format at or before the first call). -/
theorem C5_expiry_after_window (m : SessionManager) (U N : String) (t1 t2 : Nat)
    (hwf : ∀ d, dictGet U m.sessions = some d →
      ∃ ns0 t0, d.session_id = mkSessionId ns0 U t0 ∧ t0 ≤ t1)
    (hpos : 0 < m.inactivity_timeout)
    (hdt : m.inactivity_timeout ≤ t2 - t1) :
    (get_or_create_session m U N false t1).1 ≠
      (get_or_create_session (get_or_create_session m U N false t1).2 U N false t2).1 ∧
    (get_or_create_session (get_or_create_session m U N false t1).2 U N false t2).1 =
      mkSessionId N U t2 ∧
    ∃ ns0 t0, (get_or_create_session m U N false t1).1 = mkSessionId ns0 U t0 ∧
      t0 < t2 := by
  obtain ⟨d1, hd1, hsid, hla⟩ := get_or_create_entry m U N false t1
  have ht12 : t1 < t2 := by omega
  have hmiss : fastPathHit (get_or_create_session m U N false t1).2 U false t2 = false := by
    unfold fastPathHit
    rw [hd1]
    simp only [Bool.not_false, Bool.true_and, decide_eq_false_iff_not]
    rw [hla, get_or_create_timeout]
    omega
  have h2 := get_or_create_of_miss _ U N false t2 hmiss
  have hfirst : ∃ ns0 t0, (get_or_create_session m U N false t1).1 = mkSessionId ns0 U t0 ∧
      t0 < t2 := by
    rcases get_or_create_sid_cases m U N false t1 with hcase | ⟨d0, hd0, hcase⟩
    · exact ⟨N, t1, hcase, ht12⟩
    · obtain ⟨ns0, t0, hfmt, ht0⟩ := hwf d0 hd0
      exact ⟨ns0, t0, by rw [hcase, hfmt], by omega⟩
  obtain ⟨ns0, t0, hfmt, ht0⟩ := hfirst
  refine ⟨?_, by rw [h2], ns0, t0, hfmt, ht0⟩
  rw [hfmt, h2]
  exact mkSessionId_ne_of_ts_ne ns0 U N U (by omega)

/-- C5 witness at a concrete input. -/
theorem C5_expiry_after_window_witness :
    ((get_or_create_session (⟨120, []⟩ : SessionManager) "u" "ns" false 100).1 ≠
      (get_or_create_session (get_or_create_session ⟨120, []⟩ "u" "ns" false 100).2
        "u" "ns" false 300).1 ∧
    (get_or_create_session (get_or_create_session ⟨120, []⟩ "u" "ns" false 100).2
        "u" "ns" false 300).1 = mkSessionId "ns" "u" 300 ∧
    ∃ ns0 t0, (get_or_create_session (⟨120, []⟩ : SessionManager) "u" "ns" false 100).1 =
      mkSessionId ns0 "u" t0 ∧ t0 < 300) :=
  C5_expiry_after_window ⟨120, []⟩ "u" "ns" 100 300
    (fun d hd => by simp [dictGet] at hd) (by decide) (by decide)

/-- C6 counterexample: with the prior session created in the same second,
`force_new = true` returns the *identical* session id (second-granularity
timestamps make the two creations indistinguishable), contradicting the
claim that the returned id always differs from the one held before. -/
theorem C6_counterexample_same_second :
    (get_or_create_session (get_or_create_session ⟨120, []⟩ "u" "ns" false 5).2
        "u" "ns" true 5).1 =
      (get_or_create_session (⟨120, []⟩ : SessionManager) "u" "ns" false 5).1 := by
  decide

/-- C6 amended: `force_new = true` always creates and stores a fresh
session entry stamped with the call time, regardless of elapsed time; the
returned id differs from the previously held one whenever the previous id
was minted at a different second-granularity timestamp, but coincides with
it when both creations fall in the same second. -/
theorem C6_force_new_always_creates (m : SessionManager) (U N : String)
    (t2 : Nat) (d : SessionData) (ns0 : String) (t0 : Nat)
    (hd : dictGet U m.sessions = some d)
    (hfmt : d.session_id = mkSessionId ns0 U t0)
    (hne : t0 ≠ t2) :
    (get_or_create_session m U N true t2).1 = mkSessionId N U t2 ∧
    (get_or_create_session m U N true t2).1 ≠ d.session_id ∧
    dictGet U (get_or_create_session m U N true t2).2.sessions =
      some ⟨mkSessionId N U t2, t2, t2⟩ := by
  have hmiss : fastPathHit m U true t2 = false := by
    unfold fastPathHit
    rw [hd]
    simp
  have h := get_or_create_of_miss m U N true t2 hmiss
  rw [h]
  refine ⟨rfl, ?_, dictGet_dictSet_self U _ _⟩
  rw [hfmt]
  exact mkSessionId_ne_of_ts_ne N U ns0 U (Ne.symm hne)

/-- C6 witness at a concrete input (one second later). -/
theorem C6_force_new_witness :
    (5 : Nat) ≠ 6 ∧
    ((get_or_create_session (⟨120, [("u", ⟨mkSessionId "ns" "u" 5, 5, 5⟩)]⟩ : SessionManager)
        "u" "ns" true 6).1 = mkSessionId "ns" "u" 6 ∧
    (get_or_create_session (⟨120, [("u", ⟨mkSessionId "ns" "u" 5, 5, 5⟩)]⟩ : SessionManager)
        "u" "ns" true 6).1 ≠ (⟨mkSessionId "ns" "u" 5, 5, 5⟩ : SessionData).session_id ∧
    dictGet "u" (get_or_create_session
        (⟨120, [("u", ⟨mkSessionId "ns" "u" 5, 5, 5⟩)]⟩ : SessionManager)
        "u" "ns" true 6).2.sessions = some ⟨mkSessionId "ns" "u" 6, 6, 6⟩) :=
  ⟨by decide,
    C6_force_new_always_creates ⟨120, [("u", ⟨mkSessionId "ns" "u" 5, 5, 5⟩)]⟩
      "u" "ns" 6 ⟨mkSessionId "ns" "u" 5, 5, 5⟩ "ns" 5 (by decide) rfl (by decide)⟩

/-- C7 counterexample: an entry whose elapsed time equals the timeout
exactly (claimed expired, since elapsed ≥ timeout) is *not* removed by
`cleanup_expired`, which tests with strict `>`; the sweep returns 0 and
leaves the entry in place. -/
theorem C7_counterexample_boundary :
    (⟨120, [("u", ⟨"s", 0, 0⟩)]⟩ : SessionManager).inactivity_timeout ≤ 120 - 0 ∧
    (cleanup_expired ⟨120, [("u", ⟨"s", 0, 0⟩)]⟩ 120).1 = 0 ∧
    (cleanup_expired ⟨120, [("u", ⟨"s", 0, 0⟩)]⟩ 120).2.sessions =
      [("u", ⟨"s", 0, 0⟩)] := by
  decide

/-- C7 amended: for a store with distinct keys, `cleanup_expired` removes
exactly the entries whose elapsed time is *strictly greater* than the
inactivity timeout, leaves all other entries unchanged (in order), and
returns the number of entries removed. -/
theorem C7_cleanup_removes_strictly_expired (m : SessionManager) (now : Nat)
    (hnd : (m.sessions.map Prod.fst).Nodup) :
    (cleanup_expired m now).2.sessions =
      m.sessions.filter (fun p => decide (now - p.2.last_activity ≤ m.inactivity_timeout)) ∧
    (cleanup_expired m now).1 =
      (m.sessions.filter
        (fun p => decide (m.inactivity_timeout < now - p.2.last_activity))).length := by
  constructor
  · have hred : (cleanup_expired m now).2.sessions =
        ((m.sessions.filter fun p =>
          decide (m.inactivity_timeout < now - p.2.last_activity)).map Prod.fst).foldl
          (fun acc k => dictDel k acc) m.sessions := rfl
    rw [hred, foldl_dictDel _ _ hnd]
    apply List.filter_congr
    intro p hp
    rw [decide_eq_decide]
    constructor
    · intro hnk
      by_contra hgt
      push_neg at hgt
      exact hnk (List.mem_map_of_mem Prod.fst
        (List.mem_filter.mpr ⟨hp, by simpa using hgt⟩))
    · intro hle hmem
      obtain ⟨q, hqf, hq1⟩ := List.mem_map.mp hmem
      have hqmem := (List.mem_filter.mp hqf).1
      have hqexp := (List.mem_filter.mp hqf).2
      have hqp : q = p := List.inj_on_of_nodup_map hnd hqmem hp hq1
      rw [hqp] at hqexp
      simp only [decide_eq_true_eq] at hqexp
      omega
  · simp [cleanup_expired, List.length_map]

/-- C7 witness at a concrete input (one expired, one live entry). -/
theorem C7_cleanup_witness :
    ((([("a", ⟨"s1", 0, 0⟩), ("b", ⟨"s2", 100, 0⟩)] :
        List (String × SessionData)).map Prod.fst).Nodup) ∧
    ((cleanup_expired ⟨120, [("a", ⟨"s1", 0, 0⟩), ("b", ⟨"s2", 100, 0⟩)]⟩ 150).2.sessions =
      ([("a", ⟨"s1", 0, 0⟩), ("b", ⟨"s2", 100, 0⟩)] :
        List (String × SessionData)).filter
        (fun p => decide (150 - p.2.last_activity ≤
          (⟨120, [("a", ⟨"s1", 0, 0⟩), ("b", ⟨"s2", 100, 0⟩)]⟩ : SessionManager).inactivity_timeout)) ∧
    (cleanup_expired ⟨120, [("a", ⟨"s1", 0, 0⟩), ("b", ⟨"s2", 100, 0⟩)]⟩ 150).1 =
      (([("a", ⟨"s1", 0, 0⟩), ("b", ⟨"s2", 100, 0⟩)] :
        List (String × SessionData)).filter
        (fun p => decide ((⟨120, [("a", ⟨"s1", 0, 0⟩), ("b", ⟨"s2", 100, 0⟩)]⟩ : SessionManager).inactivity_timeout <
          150 - p.2.last_activity))).length) :=
  ⟨by decide,
    C7_cleanup_removes_strictly_expired
      ⟨120, [("a", ⟨"s1", 0, 0⟩), ("b", ⟨"s2", 100, 0⟩)]⟩ 150 (by decide)⟩

/-- C10: the session store is keyed by the user identity alone, ignoring
the namespace on lookup: a session created under namespace N1 is reused by
an in-window call under a different namespace N2, and the returned id
carries the N1 (not N2) namespace. -/
theorem C10_store_keyed_by_user_only (m : SessionManager) (U N1 N2 : String)
    (t1 t2 : Nat) (h0 : dictGet U m.sessions = none)
    (hdt : t2 - t1 < m.inactivity_timeout) (hns : N1 ≠ N2) :
    (get_or_create_session m U N1 false t1).1 = mkSessionId N1 U t1 ∧
    (get_or_create_session (get_or_create_session m U N1 false t1).2 U N2 false t2).1 =
      mkSessionId N1 U t1 ∧
    mkSessionId N1 U t1 ≠ mkSessionId N2 U t1 ∧
    mkSessionId N1 U t1 ≠ mkSessionId N2 U t2 := by
  have hmiss1 : fastPathHit m U false t1 = false := by
    unfold fastPathHit
    rw [h0]
  have h1 := get_or_create_of_miss m U N1 false t1 hmiss1
  have hd1 : dictGet U (get_or_create_session m U N1 false t1).2.sessions =
      some ⟨mkSessionId N1 U t1, t1, t1⟩ := by
    rw [h1]
    exact dictGet_dictSet_self U _ _
  have h2 := get_or_create_of_hit (get_or_create_session m U N1 false t1).2 U N2 t2
    ⟨mkSessionId N1 U t1, t1, t1⟩ hd1 (by rw [h1]; exact hdt)
  refine ⟨by rw [h1], by rw [h2], mkSessionId_ne_of_ns_ne N1 N2 U t1 t1 hns, ?_⟩
  by_cases hts : t1 = t2
  · rw [hts]
    exact mkSessionId_ne_of_ns_ne N1 N2 U t2 t2 hns
  · exact mkSessionId_ne_of_ts_ne N1 U N2 U hts

/-- C10 witness at a concrete input. -/
theorem C10_store_keyed_witness :
    (dictGet "u" (⟨120, []⟩ : SessionManager).sessions = none ∧
      (150 : Nat) - 100 < (⟨120, []⟩ : SessionManager).inactivity_timeout ∧
      ("ns1" : String) ≠ "ns2") ∧
    ((get_or_create_session (⟨120, []⟩ : SessionManager) "u" "ns1" false 100).1 =
        mkSessionId "ns1" "u" 100 ∧
    (get_or_create_session (get_or_create_session ⟨120, []⟩ "u" "ns1" false 100).2
        "u" "ns2" false 150).1 = mkSessionId "ns1" "u" 100 ∧
    mkSessionId "ns1" "u" 100 ≠ mkSessionId "ns2" "u" 100 ∧
    mkSessionId "ns1" "u" 100 ≠ mkSessionId "ns2" "u" 150) :=
  ⟨⟨by decide, by decide, by decide⟩,
    C10_store_keyed_by_user_only ⟨120, []⟩ "u" "ns1" "ns2" 100 150
      (by decide) (by decide) (by decide)⟩

/-- C2: whenever the two-tier resolver's slow path consults the remote
resolver and the remote call succeeds with `(session_id, reused)`, the
manager returns exactly the remote session id, overwrites the local cache
entry for the user with that id and a fresh `last_activity = now`
(regardless of `reused`), and a subsequent call within the inactivity
timeout returns that same id from the fast path without invoking the
remote resolver again. -/
theorem C2_two_tier_authority (m : SessionManager) (U N : String) (fn : Bool)
    (r : RemoteSession) (tFast tSlow t3 tS3 : Nat)
    (remote3 : Except String RemoteSession)
    (hmiss : fastPathHit m U fn tFast = false)
    (h3 : t3 - tSlow < m.inactivity_timeout) :
    (persistent_get_or_create_session m U N fn (Except.ok r) tFast tSlow).session_id =
      r.session_id ∧
    dictGet U
        (persistent_get_or_create_session m U N fn (Except.ok r) tFast tSlow).state.sessions =
      some ⟨r.session_id, tSlow, tSlow⟩ ∧
    (persistent_get_or_create_session
        (persistent_get_or_create_session m U N fn (Except.ok r) tFast tSlow).state
        U N false remote3 t3 tS3).session_id = r.session_id ∧
    (persistent_get_or_create_session
        (persistent_get_or_create_session m U N fn (Except.ok r) tFast tSlow).state
        U N false remote3 t3 tS3).remote_consulted = false := by
  have h1 := persistent_of_miss m U N fn (Except.ok r) tFast tSlow hmiss
  have hslow : persistent_slow_path m U N fn (Except.ok r) tSlow =
      ⟨r.session_id,
        { m with sessions := dictSet U ⟨r.session_id, tSlow, tSlow⟩ m.sessions },
        true⟩ := rfl
  rw [hslow] at h1
  have hd : dictGet U
      (persistent_get_or_create_session m U N fn (Except.ok r) tFast tSlow).state.sessions =
      some ⟨r.session_id, tSlow, tSlow⟩ := by
    rw [h1]
    exact dictGet_dictSet_self U _ _
  have h2 := persistent_of_hit
    (persistent_get_or_create_session m U N fn (Except.ok r) tFast tSlow).state
    U N remote3 t3 tS3 ⟨r.session_id, tSlow, tSlow⟩ hd (by rw [h1]; exact h3)
  exact ⟨by rw [h1], hd, by rw [h2], by rw [h2]⟩

/-- C2 witness at a concrete input (`reused = true`, arbitrary failing
remote on the second call, which is not consulted). -/
theorem C2_two_tier_witness :
    (fastPathHit (⟨120, []⟩ : SessionManager) "u" false 10 = false ∧
      (50 : Nat) - 11 < (⟨120, []⟩ : SessionManager).inactivity_timeout) ∧
    ((persistent_get_or_create_session (⟨120, []⟩ : SessionManager) "u" "ns" false
        (Except.ok ⟨"srv-sid", true⟩) 10 11).session_id = ("srv-sid" : String) ∧
    dictGet "u"
        (persistent_get_or_create_session (⟨120, []⟩ : SessionManager) "u" "ns" false
          (Except.ok ⟨"srv-sid", true⟩) 10 11).state.sessions =
      some ⟨"srv-sid", 11, 11⟩ ∧
    (persistent_get_or_create_session
        (persistent_get_or_create_session (⟨120, []⟩ : SessionManager) "u" "ns" false
          (Except.ok ⟨"srv-sid", true⟩) 10 11).state
        "u" "ns" false (Except.error "down") 50 51).session_id = ("srv-sid" : String) ∧
    (persistent_get_or_create_session
        (persistent_get_or_create_session (⟨120, []⟩ : SessionManager) "u" "ns" false
          (Except.ok ⟨"srv-sid", true⟩) 10 11).state
        "u" "ns" false (Except.error "down") 50 51).remote_consulted = false) :=
  ⟨⟨by decide, by decide⟩,
    C2_two_tier_authority ⟨120, []⟩ "u" "ns" false ⟨"srv-sid", true⟩ 10 11 50 51
      (Except.error "down") (by decide) (by decide)⟩

/-- C3: if the slow path runs and the remote call fails with any error,
`persistent_get_or_create_session` does not propagate the failure (the
embedded function is total: every exception of the remote call is caught);
it falls back to the pure-local algorithm and returns the deterministic
`{namespace}-{user_id}-{timestamp}` id minted at the fallback time. -/
theorem C3_two_tier_fallback (m : SessionManager) (U N : String) (fn : Bool)
    (e : String) (tFast tSlow : Nat)
    (hmiss : fastPathHit m U fn tFast = false)
    (hts : tFast ≤ tSlow) :
    (persistent_get_or_create_session m U N fn (Except.error e) tFast tSlow).session_id =
      mkSessionId N U tSlow ∧
    (persistent_get_or_create_session m U N fn (Except.error e) tFast tSlow).state =
      (get_or_create_session m U N fn tSlow).2 ∧
    (persistent_get_or_create_session m U N fn (Except.error e) tFast tSlow).remote_consulted =
      true := by
  have h1 := persistent_of_miss m U N fn (Except.error e) tFast tSlow hmiss
  have hmiss2 : fastPathHit m U fn tSlow = false :=
    fastPathHit_mono m U fn tFast tSlow hts hmiss
  have hgo := get_or_create_of_miss m U N fn tSlow hmiss2
  have hslow : persistent_slow_path m U N fn (Except.error e) tSlow =
      ⟨(get_or_create_session m U N fn tSlow).1,
        (get_or_create_session m U N fn tSlow).2, true⟩ := rfl
  rw [hslow] at h1
  exact ⟨by rw [h1, hgo], by rw [h1], by rw [h1]⟩

/-- C3 witness at a concrete input (deterministically failing remote). -/
theorem C3_two_tier_fallback_witness :
    (fastPathHit (⟨120, []⟩ : SessionManager) "u" false 10 = false ∧ (10 : Nat) ≤ 12) ∧
    ((persistent_get_or_create_session (⟨120, []⟩ : SessionManager) "u" "ns" false
        (Except.error "boom") 10 12).session_id = mkSessionId "ns" "u" 12 ∧
    (persistent_get_or_create_session (⟨120, []⟩ : SessionManager) "u" "ns" false
        (Except.error "boom") 10 12).state =
      (get_or_create_session (⟨120, []⟩ : SessionManager) "u" "ns" false 12).2 ∧
    (persistent_get_or_create_session (⟨120, []⟩ : SessionManager) "u" "ns" false
        (Except.error "boom") 10 12).remote_consulted = true) :=
  ⟨⟨by decide, by decide⟩,
    C3_two_tier_fallback ⟨120, []⟩ "u" "ns" false "boom" 10 12 (by decide) (by decide)⟩

/-- C8: enqueuing a finalized record appends it to the batch buffer, and a
flush to the transport is made exactly when the buffer length reaches
`batch_size`: the `batch_size`-th record triggers a single
`upload_records_batch` call carrying all buffered records (and empties the
buffer), a buffer still below the threshold triggers none, and with
`batch_size = 1` every enqueued record is uploaded immediately. -/
theorem C8_batcher_threshold {R : Type} (send : Nat → List R → Except String Nat)
    (batch_size chunk_size : Nat) (buffer : List R) (r : R) :
    ((enqueue_record send batch_size chunk_size buffer r).uploaded =
      if batch_size ≤ buffer.length + 1 then some (buffer ++ [r]) else none) ∧
    ((enqueue_record send batch_size chunk_size buffer r).buffer =
      if batch_size ≤ buffer.length + 1 then [] else buffer ++ [r]) ∧
    (enqueue_record send 1 chunk_size buffer r).uploaded = some (buffer ++ [r]) := by
  have hbe : (buffer ++ [r]).isEmpty = false := by simp
  refine ⟨?_, ?_, ?_⟩
  · by_cases h : batch_size ≤ buffer.length + 1 <;>
      simp [enqueue_record, flush_batch, h, hbe]
  · by_cases h : batch_size ≤ buffer.length + 1 <;>
      simp [enqueue_record, flush_batch, h, hbe]
  · simp [enqueue_record, flush_batch, hbe]

/-- C9: `upload_records_batch` is total (it catches every chunk exception
rather than raising) and returns a structured summary: `total_records` is
the input length, `total_inserted` sums the inserted counts of the
successful chunks, and `failures` holds exactly one `(chunk_index, error)`
entry per failed chunk; the chunk lists partition the input. -/
theorem C9_batch_upload_summary {R : Type} (records : List R) (cs : Nat)
    (send : Nat → List R → Except String Nat) (hcs : 0 < cs) :
    (chunksOf cs records).flatten = records ∧
    (upload_records_batch send records cs).total_records = records.length ∧
    (upload_records_batch send records cs).total_inserted =
      ((chunksOf cs records).enum.map fun p => match send p.1 p.2 with
        | .ok n => n
        | .error _ => 0).sum ∧
    (upload_records_batch send records cs).failures =
      (chunksOf cs records).enum.filterMap fun p => match send p.1 p.2 with
        | .ok _ => none
        | .error e => some (p.1, e) := by
  refine ⟨chunksOf_flatten cs hcs records, ?_, ?_, ?_⟩ <;>
    rw [upload_records_batch_def]

/-- C9 witness at a concrete input: chunks `[a,b]` (succeeds, 2 inserted)
and `[c]` (fails). -/
theorem C9_batch_upload_witness :
    (0 : Nat) < 2 ∧
    ((chunksOf 2 ["a", "b", "c"]).flatten = ["a", "b", "c"] ∧
    (upload_records_batch
        (fun i _ => if i = 0 then Except.ok 2 else Except.error "boom")
        ["a", "b", "c"] 2).total_records = (["a", "b", "c"] : List String).length ∧
    (upload_records_batch
        (fun i _ => if i = 0 then Except.ok 2 else Except.error "boom")
        ["a", "b", "c"] 2).total_inserted =
      ((chunksOf 2 ["a", "b", "c"]).enum.map fun p =>
        match (if p.1 = 0 then Except.ok 2 else Except.error "boom" : Except String Nat) with
        | .ok n => n
        | .error _ => 0).sum ∧
    (upload_records_batch
        (fun i _ => if i = 0 then Except.ok 2 else Except.error "boom")
        ["a", "b", "c"] 2).failures =
      (chunksOf 2 ["a", "b", "c"]).enum.filterMap fun p =>
        match (if p.1 = 0 then Except.ok 2 else Except.error "boom" : Except String Nat) with
        | .ok _ => none
        | .error e => some (p.1, e)) :=
  ⟨by decide,
    C9_batch_upload_summary ["a", "b", "c"] 2
      (fun i _ => if i = 0 then Except.ok 2 else Except.error "boom") (by decide)⟩

/-- C1 counterexample: a one-record buffer flushed against a transport
that fails its only chunk.  The claim says the buffer after the flush
still contains the record that failed to send; in fact `_flush_batch`
clears the buffer (the summary records the failure, `total_inserted = 0`),
because `upload_records_batch` catches the chunk exception and returns
normally, so the `except` branch that would retain the buffer never runs. -/
theorem C1_counterexample_flush_clears_on_failure :
    (flush_batch (fun _ _ => (Except.error "HTTP 500" : Except String Nat)) 100
        ["r1"]).buffer = ([] : List String) ∧
    (flush_batch (fun _ _ => (Except.error "HTTP 500" : Except String Nat)) 100
        ["r1"]).uploaded = some ["r1"] ∧
    (flush_batch (fun _ _ => (Except.error "HTTP 500" : Except String Nat)) 100
        ["r1"]).summary = some ⟨0, 1, [(0, "HTTP 500")]⟩ := by
  have hch : chunksOf 100 ["r1"] = [["r1"]] := by
    rw [chunksOf]
    norm_num
    rw [chunksOf]
  refine ⟨rfl, rfl, ?_⟩
  show some (upload_records_batch (fun _ _ => (Except.error "HTTP 500" : Except String Nat))
    ["r1"] 100) = _
  rw [upload_records_batch_def, hch]
  rfl

/-- C1 amended: `_flush_batch` hands the entire buffer to
`upload_records_batch` in one call and then clears the buffer whenever
that call returns — which it always does, even when every chunk upload
fails, because `upload_records_batch` catches per-chunk exceptions and
only reports them in the returned summary.  Records of failed chunks are
therefore dropped from the buffer; the buffer would be retained only if
the upload call itself raised, which transport failures never cause. -/
theorem C1_flush_clears_even_on_total_failure {R : Type}
    (send : Nat → List R → Except String Nat) (cs : Nat) (buffer : List R)
    (hne : buffer ≠ [])
    (hfail : ∀ i c, ∃ e, send i c = Except.error e) :
    (flush_batch send cs buffer).buffer = [] ∧
    (flush_batch send cs buffer).uploaded = some buffer ∧
    ∃ S, (flush_batch send cs buffer).summary = some S ∧
      S.total_inserted = 0 ∧
      S.total_records = buffer.length ∧
      S.failures.length = (chunksOf cs buffer).length := by
  have hbe : buffer.isEmpty = false := by simpa [List.isEmpty_iff] using hne
  refine ⟨by simp [flush_batch, hbe], by simp [flush_batch, hbe],
    upload_records_batch send buffer cs, by simp [flush_batch, hbe], ?_, rfl, ?_⟩
  · rw [upload_records_batch_def]
    apply List.sum_eq_zero
    intro x hx
    obtain ⟨p, _, hpx⟩ := List.mem_map.mp hx
    obtain ⟨e, he⟩ := hfail p.1 p.2
    rw [he] at hpx
    exact hpx.symm
  · have hlen : ∀ l : List (Nat × List R),
        (l.filterMap fun p => match send p.1 p.2 with
          | .ok _ => none
          | .error e => some (p.1, e)).length = l.length := by
      intro l
      induction l with
      | nil => rfl
      | cons p t ih =>
        obtain ⟨e, he⟩ := hfail p.1 p.2
        simp [List.filterMap_cons, he, ih]
    rw [upload_records_batch_def]
    show ((chunksOf cs buffer).enum.filterMap fun p => match send p.1 p.2 with
      | .ok _ => none
      | .error e => some (p.1, e)).length = (chunksOf cs buffer).length
    rw [hlen]
    exact List.enum_length

/-- C1 witness at a concrete input (two records, every chunk fails). -/
theorem C1_flush_clears_witness :
    ((["r1", "r2"] : List String) ≠ [] ∧
      ∀ (i : Nat) (c : List String),
        ∃ e, (fun (_ : Nat) (_ : List String) =>
          (Except.error "HTTP 500" : Except String Nat)) i c = Except.error e) ∧
    ((flush_batch (fun _ _ => (Except.error "HTTP 500" : Except String Nat)) 100
        ["r1", "r2"]).buffer = [] ∧
    (flush_batch (fun _ _ => (Except.error "HTTP 500" : Except String Nat)) 100
        ["r1", "r2"]).uploaded = some ["r1", "r2"] ∧
    ∃ S, (flush_batch (fun _ _ => (Except.error "HTTP 500" : Except String Nat)) 100
        ["r1", "r2"]).summary = some S ∧
      S.total_inserted = 0 ∧
      S.total_records = (["r1", "r2"] : List String).length ∧
      S.failures.length = (chunksOf 100 ["r1", "r2"]).length) :=
  ⟨⟨by decide, fun i c => ⟨"HTTP 500", rfl⟩⟩,
    C1_flush_clears_even_on_total_failure
      (fun _ _ => (Except.error "HTTP 500" : Except String Nat)) 100 ["r1", "r2"]
      (by decide) (fun i c => ⟨"HTTP 500", rfl⟩)⟩

end MonkaiTrace
